import Mathlib

/-!
# Verification of the `elist` error-message-stack package

Shallow embedding of `src/elist.go` (package `elist`), which implements an
error-message-stack `Elist`:

    type Elist struct {
        next  *Elist      // Next node in a singly linked stack.
        value interface{} // The payload of the error node.
    }

together with the operations `Elist::Error`, `New`, `Newf`, `Push`, `Pushf`.

Modelling choices:

* A `*Elist` pointer value is the inductive `ElistPtr`: either the nil
  pointer or a node with a payload and a next pointer.
* The `interface{}` payload (`value` field) is the sum type `Value`, with one
  case per branch of the type switch in `Elist::Error`: a `string`, a
  non-`Elist` `error` (represented by the string its own `Error()` method /
  `%v` formatting produces), the nil interface, and a default case for any
  other value (represented by the string `%v` produces for it).
* A Go `error` interface value (the argument and result type of `Push`) is
  `GoError`: the nil interface, an interface holding a `*Elist` (possibly the
  nil pointer: a "typed nil"), or a foreign error represented by its own
  textual description.  Go's `e == nil` test is true exactly for the nil
  interface, and the type assertion `e.(*Elist)` succeeds exactly on the
  `elist` case (also when the contained pointer is nil).
* `fmt.Sprintf` is modelled by `sprintf`, a best-effort printf-style
  substitution over a closed argument type (strings and integers), mirroring
  Go's permissive behaviour on missing arguments.
-/

/-- The `value interface{}` payload of an `Elist` node, split into the cases
distinguished by the type switch in `Elist::Error` (src/elist.go:121-135):
a `string`, an `error` (carried as the text its `Error()` method produces,
which is what `%v` prints for an error), the nil interface, and any other
value (carried as the text `%v` prints for it). -/
inductive Value where
  | vstr (s : String)
  | verr (desc : String)
  | vnil
  | vother (desc : String)
  deriving DecidableEq, Repr

/-- A `*Elist` pointer: nil, or a pointer to a node `Elist{next, value}`
(src/elist.go:91-97).  Chains built by the package are finite and acyclic, so
an inductive type represents exactly the reachable pointer structures. -/
inductive ElistPtr where
  | nil
  | node (value : Value) (next : ElistPtr)
  deriving DecidableEq, Repr

/-- A Go `error` interface value as far as this package distinguishes them:
the nil interface, an interface holding a `*Elist` pointer (possibly a typed
nil), or a foreign (non-`Elist`) error carried as its own textual
description. -/
inductive GoError where
  | nilIface
  | elist (p : ElistPtr)
  | foreign (desc : String)
  deriving DecidableEq, Repr

/-- The message fragment computed by the type switch in `Elist::Error` for
one node payload (src/elist.go:121-135):
`: "x"` for a string, `: "%v"` for an error, `: [error == nil]` for a nil
payload, and `: [Unrecognized error] "%v"` for anything else. -/
def Value.fragment : Value → String
  | .vstr s => ": \"" ++ s ++ "\""
  | .verr d => ": \"" ++ d ++ "\""
  | .vnil => ": [error == nil]"
  | .vother d => ": [Unrecognized error] \"" ++ d ++ "\""

/-- One output line of `Elist::Error`:
`fmt.Sprintf("Error %d%s.\n", n, msg)` (src/elist.go:137). -/
def errorLine (n : Nat) (msg : String) : String :=
  "Error " ++ toString n ++ msg ++ ".\n"

/-- The loop of `Elist::Error` (src/elist.go:116-139): walk the chain from
`q`, with `n` the 1-based position counter, appending one line per node. -/
def errorFrom : ElistPtr → Nat → String
  | .nil, _ => ""
  | .node v next, n => errorLine n v.fragment ++ errorFrom next (n + 1)

/-- `Elist::Error` (src/elist.go:109-141): returns `""` on a nil receiver,
otherwise renders the chain from position 1. -/
def ElistPtr.Error : ElistPtr → String
  | .nil => ""
  | p => errorFrom p 1

/-- Rendering a Go `error` value: calling its `Error()` method.  For a
`*Elist` this is `ElistPtr.Error`; a foreign error yields its own
description.  (Go would panic on the nil interface; the spec's
`Render(none)` refers to a nil `*Elist` receiver, and no theorem below
renders a nil interface.) -/
def Render : GoError → String
  | .nilIface => ""
  | .elist p => p.Error
  | .foreign d => d

/-- An argument passed through `...interface{}` to the formatting helpers:
a string or an integer. -/
inductive FmtArg where
  | str (s : String)
  | int (n : Int)
  deriving DecidableEq, Repr

/-- Default textual rendering of a formatting argument (Go's `%v`). -/
def FmtArg.render : FmtArg → String
  | .str s => s
  | .int n => toString n

/-- Core loop of the `fmt.Sprintf` model: best-effort printf substitution.
`%s`, `%d` and `%v` consume one argument and render it; `%%` is a literal
percent; a verb with no argument left produces a `%!v(MISSING)` marker, in
the style of Go's `fmt`; no error is ever raised. -/
def sprintfAux : List Char → List FmtArg → String
  | [], _ => ""
  | ['%'], _ => "%"
  | '%' :: '%' :: rest, args => "%" ++ sprintfAux rest args
  | '%' :: c :: rest, [] =>
      "%!" ++ String.singleton c ++ "(MISSING)" ++ sprintfAux rest []
  | '%' :: c :: rest, a :: args =>
      if c = 's' ∨ c = 'd' ∨ c = 'v' then a.render ++ sprintfAux rest args
      else "%!" ++ String.singleton c ++ "(" ++ a.render ++ ")" ++ sprintfAux rest args
  | c :: rest, args => String.singleton c ++ sprintfAux rest args

/-- Model of `fmt.Sprintf format args...`. -/
def sprintf (format : String) (args : List FmtArg) : String :=
  sprintfAux format.data args

/-- `New` (src/elist.go:153-164): a fresh single node with the string as
payload and nil `next` (the `p == nil` branch after `new(Elist)` can never
be taken, as its comment notes), returned as an `error`. -/
def New (s : String) : GoError :=
  .elist (.node (.vstr s) .nil)

/-- `Newf` (src/elist.go:173-188): `New(fmt.Sprintf(format, args...))`. -/
def Newf (format : String) (args : List FmtArg) : GoError :=
  New (sprintf format args)

/-- `Push` (src/elist.go:212-237): a new head node with payload `s`.  If
`e == nil` (nil interface) the node stands alone; if the assertion
`e.(*Elist)` succeeds the contained pointer becomes `next` directly
(ownership transfer, no copy — also when it is a typed nil); otherwise a
fresh node wrapping the foreign error is synthesized as the tail. -/
def Push (e : GoError) (s : String) : GoError :=
  match e with
  | .nilIface => .elist (.node (.vstr s) .nil)
  | .elist q => .elist (.node (.vstr s) q)
  | .foreign d => .elist (.node (.vstr s) (.node (.verr d) .nil))

/-- `Pushf` (src/elist.go:248-253): `Push(e, fmt.Sprintf(format, args...))`. -/
def Pushf (e : GoError) (format : String) (args : List FmtArg) : GoError :=
  Push e (sprintf format args)

/-- Number of nodes in a chain. -/
def ElistPtr.length : ElistPtr → Nat
  | .nil => 0
  | .node _ next => 1 + next.length

/-- `n` sequential `Push` calls starting from the nil interface: the result
of `e := Push(e, m)` iterated over the messages in the order they are
pushed. -/
def pushAll (msgs : List String) : GoError :=
  msgs.foldl Push GoError.nilIface

/-- Whether an `error` value is an interface holding a `*Elist`. -/
def GoError.isElist : GoError → Bool
  | .elist _ => true
  | _ => false

/-- Node count of the chain held by an `error` value (0 otherwise). -/
def GoError.chainLength : GoError → Nat
  | .elist p => p.length
  | _ => 0

/-- The line shape the spec prescribes for a render: one line per message,
numbered consecutively from `n`, each of the form `Error k: "msg".` with a
trailing newline. -/
def specLines : List String → Nat → String
  | [], _ => ""
  | s :: rest, n =>
      "Error " ++ toString n ++ ": \"" ++ s ++ "\".\n" ++ specLines rest (n + 1)

/-- Prepending each message of a list in turn onto an existing chain; this is
the pointer-level effect of iterated `Push` on a chain argument. -/
def chainOnto : List String → ElistPtr → ElistPtr
  | [], p => p
  | s :: rest, p => chainOnto rest (.node (.vstr s) p)

/-- A heap node: the two fields of the `Elist` struct, with the `next`
pointer an optional heap address. -/
structure HNode where
  next : Option Nat
  value : Value
  deriving DecidableEq, Repr

/-- The loop of `Elist::Error` over an explicit heap (addresses are list
indices): walks from address `q`, counter `n`, one line per node.  `fuel`
bounds the walk so the function is total; `none` models the diverging run
that Go would perform on a cyclic heap (and the impossible dangling
address).  No node field is ever written. -/
def heapErrorLoop (h : List HNode) : Option Nat → Nat → Nat → Option String
  | none, _, _ => some ""
  | some _, _, 0 => none
  | some a, n, fuel + 1 =>
      match h.get? a with
      | none => none
      | some nd =>
          (heapErrorLoop h nd.next (n + 1) fuel).map
            (fun rest => errorLine n nd.value.fragment ++ rest)

/-- `Elist::Error` on the heap model, as a state transformer: the pair of
the computed string and the post-state of the heap.  The method body only
reads `q.value` and `q.next` and writes no field, so the post-state is the
input heap itself. -/
def heapError (h : List HNode) (p : Option Nat) : Option String × List HNode :=
  match p with
  | none => (some "", h)
  | some _ => (heapErrorLoop h p 1 (h.length + 1), h)

/-- Read the pointer structure reachable from address `p` as an `ElistPtr`
value, with fuel; `none` when the heap is cyclic or an address dangles. -/
def readChain (h : List HNode) : Option Nat → Nat → Option ElistPtr
  | none, _ => some ElistPtr.nil
  | some _, 0 => none
  | some a, fuel + 1 =>
      match h.get? a with
      | none => none
      | some nd => (readChain h nd.next fuel).map (ElistPtr.node nd.value)

/-- Payload discipline of a chain: every node's payload is a literal message
(`string` branch of the type switch) or an adopted foreign error (`error`
branch), so rendering it never takes the `nil` branch (`[error == nil]`)
nor the `default` branch (`[Unrecognized error]`). -/
def goodChain : ElistPtr → Bool
  | .nil => true
  | .node v next =>
      (match v with
       | .vstr _ => true
       | .verr _ => true
       | .vnil => false
       | .vother _ => false) && goodChain next

/-- An `error` value holding a chain with the payload discipline above. -/
def GoError.wellFormed : GoError → Bool
  | .elist p => goodChain p
  | _ => false

/-- The `error` values constructible by the public operations of the
package: `New`, `Newf`, and `Push`/`Pushf` applied to a nil interface, to a
foreign (non-`Elist`) error, or to a previously constructed value. -/
inductive Built : GoError → Prop where
  | vnew (s : String) : Built (New s)
  | vnewf (format : String) (args : List FmtArg) : Built (Newf format args)
  | vpushNil (s : String) : Built (Push .nilIface s)
  | vpushForeign (d s : String) : Built (Push (.foreign d) s)
  | vpushChain (s : String) (e : GoError) : Built e → Built (Push e s)
  | vpushfNil (format : String) (args : List FmtArg) :
      Built (Pushf .nilIface format args)
  | vpushfForeign (d format : String) (args : List FmtArg) :
      Built (Pushf (.foreign d) format args)
  | vpushfChain (format : String) (args : List FmtArg) (e : GoError) :
      Built e → Built (Pushf e format args)

theorem toString_nat_one : toString (1 : Nat) = "1" := rfl

theorem toString_nat_two : toString (2 : Nat) = "2" := rfl

-- Character-list expansions of the string literals appearing in rendered
-- lines, used to settle string equations up to re-association.
theorem data_err1 :
    ("Error 1: \"" : String).data = ['E','r','r','o','r',' ','1',':',' ','\"'] := rfl

theorem data_err2 :
    ("Error 2: \"" : String).data = ['E','r','r','o','r',' ','2',':',' ','\"'] := rfl

theorem data_errsp : ("Error " : String).data = ['E','r','r','o','r',' '] := rfl

theorem data_one : ("1" : String).data = ['1'] := rfl

theorem data_two : ("2" : String).data = ['2'] := rfl

theorem data_colonq : (": \"" : String).data = [':',' ','\"'] := rfl

theorem data_quote : ("\"" : String).data = ['\"'] := rfl

theorem data_dotnl : (".\n" : String).data = ['.','\n'] := rfl

theorem data_qdotnl : ("\".\n" : String).data = ['\"','.','\n'] := rfl

-- Sanity checks on concrete inputs (spec §8 concrete scenarios).
example :
    Render (Push (Push (New "db: connection refused") "service: query failed")
        "handler: request failed") =
      "Error 1: \"handler: request failed\".\n" ++
      "Error 2: \"service: query failed\".\n" ++
      "Error 3: \"db: connection refused\".\n" := by decide

example : Render (Push .nilIface "top-level failure") =
    "Error 1: \"top-level failure\".\n" := by decide

/-- **C1.** Rendering `Push(New(s1), s2)` yields exactly the line for `s2`
numbered 1 followed by the line for `s1` numbered 2: LIFO order, most
recently pushed message first. -/
theorem render_push_new (s1 s2 : String) :
    Render (Push (New s1) s2) =
      ("Error 1: \"" ++ s2 ++ "\".\n") ++ ("Error 2: \"" ++ s1 ++ "\".\n") := by
  simp [Render, Push, New, ElistPtr.Error, errorFrom, errorLine, Value.fragment, toString_nat_one, toString_nat_two,
    String.ext_iff, data_err1, data_err2, data_errsp, data_one, data_two,
    data_colonq, data_quote, data_dotnl, data_qdotnl]

/-- **C2.** Rendering the single-node chain `New(s)` yields exactly
`Error 1: "s".` followed by a newline. -/
theorem render_new (s : String) :
    Render (New s) = "Error 1: \"" ++ s ++ "\".\n" := by
  simp [Render, New, ElistPtr.Error, errorFrom, errorLine, Value.fragment, toString_nat_one, toString_nat_two,
    String.ext_iff, data_err1, data_err2, data_errsp, data_one, data_two,
    data_colonq, data_quote, data_dotnl, data_qdotnl]

/-- **C3.** `Elist::Error` on a nil `*Elist` receiver returns the empty
string (src/elist.go:113-115); being a total function, it cannot fail. -/
theorem error_nil_chain : ElistPtr.Error ElistPtr.nil = "" := rfl

/-- **C4.** Pushing onto the nil interface behaves exactly like `New`: the
renders agree, and the result is a single node with nil `next`. -/
theorem push_nil_like_new (s : String) :
    Render (Push .nilIface s) = Render (New s) ∧
      Push .nilIface s = GoError.elist (.node (.vstr s) .nil) :=
  ⟨rfl, rfl⟩

/-- **C5.** Pushing a message onto a foreign (non-`Elist`) error with
description `d` renders as exactly two lines, the second line quoting `d`,
the foreign error's own textual description. -/
theorem render_push_foreign (d s : String) :
    Render (Push (.foreign d) s) =
      ("Error 1: \"" ++ s ++ "\".\n") ++ ("Error 2: \"" ++ d ++ "\".\n") := by
  simp [Render, Push, ElistPtr.Error, errorFrom, errorLine, Value.fragment, toString_nat_one, toString_nat_two,
    String.ext_iff, data_err1, data_err2, data_errsp, data_one, data_two,
    data_colonq, data_quote, data_dotnl, data_qdotnl]

/-- **C10.** Pushing onto a non-nil `error` interface that holds a nil
`*Elist` (a typed nil): the `e == nil` branch is not taken, the type
assertion succeeds, and the nil pointer is adopted directly as `next` — no
wrapped node is synthesized, and the render is the single line for `s`. -/
theorem push_typed_nil (s : String) :
    Push (GoError.elist ElistPtr.nil) s =
        GoError.elist (.node (.vstr s) ElistPtr.nil) ∧
      Render (Push (GoError.elist ElistPtr.nil) s) =
        "Error 1: \"" ++ s ++ "\".\n" := by
  refine ⟨rfl, ?_⟩
  simp [Render, Push, ElistPtr.Error, errorFrom, errorLine, Value.fragment, toString_nat_one, toString_nat_two,
    String.ext_iff, data_err1, data_err2, data_errsp, data_one, data_two,
    data_colonq, data_quote, data_dotnl, data_qdotnl]

-- Helper lemmas for the iterated-push claims.

theorem error_eq_errorFrom (p : ElistPtr) : p.Error = errorFrom p 1 := by
  cases p <;> rfl

theorem foldl_push_elist (l : List String) (p : ElistPtr) :
    List.foldl Push (GoError.elist p) l = GoError.elist (chainOnto l p) := by
  induction l generalizing p with
  | nil => rfl
  | cons s rest ih => simpa [chainOnto, Push] using ih (.node (.vstr s) p)

theorem pushAll_eq_chainOnto (m : String) (rest : List String) :
    pushAll (m :: rest) = GoError.elist (chainOnto (m :: rest) ElistPtr.nil) := by
  simpa [pushAll, chainOnto, Push] using
    foldl_push_elist rest (.node (.vstr m) .nil)

theorem chainOnto_length (l : List String) (p : ElistPtr) :
    (chainOnto l p).length = l.length + p.length := by
  induction l generalizing p with
  | nil => simp [chainOnto]
  | cons s rest ih =>
      simp [chainOnto, ih (.node (.vstr s) p), ElistPtr.length]
      omega

theorem specLines_append (l1 l2 : List String) (n : Nat) :
    specLines (l1 ++ l2) n = specLines l1 n ++ specLines l2 (n + l1.length) := by
  induction l1 generalizing n with
  | nil => simp [specLines]
  | cons s rest ih =>
      simp [specLines, ih (n + 1), String.append_assoc, Nat.add_assoc,
        Nat.add_comm 1 rest.length]

theorem errorFrom_chainOnto (l : List String) (p : ElistPtr) (n : Nat) :
    errorFrom (chainOnto l p) n =
      specLines l.reverse n ++ errorFrom p (n + l.length) := by
  induction l generalizing p n with
  | nil => simp [chainOnto, specLines]
  | cons s rest ih =>
      rw [chainOnto, ih (.node (.vstr s) p) n, List.reverse_cons,
        specLines_append, errorFrom]
      simp [specLines, errorLine, Value.fragment, String.ext_iff, data_errsp,
        data_colonq, data_quote, data_dotnl, data_qdotnl, Nat.add_assoc,
        Nat.add_comm 1 rest.length]

-- Helper lemma for the heap model: on a well-formed (acyclic, no dangling
-- address) heap chain, the heap-level loop computes exactly the pure
-- rendering of the chain it stores.

theorem heapErrorLoop_readChain (h : List HNode) (fuel : Nat) :
    ∀ (addr : Option Nat) (n : Nat) (c : ElistPtr),
      readChain h addr fuel = some c →
      heapErrorLoop h addr n fuel = some (errorFrom c n) := by
  induction fuel with
  | zero =>
      intro addr n c hc
      cases addr with
      | none =>
          simp [readChain] at hc
          simp [heapErrorLoop, ← hc, errorFrom]
      | some a => simp [readChain] at hc
  | succ fuel ih =>
      intro addr n c hc
      cases addr with
      | none =>
          simp [readChain] at hc
          simp [heapErrorLoop, ← hc, errorFrom]
      | some a =>
          rw [readChain] at hc
          rw [heapErrorLoop]
          cases hga : h.get? a with
          | none => rw [hga] at hc; simp at hc
          | some nd =>
              rw [hga] at hc
              rw [Option.map_eq_some'] at hc
              obtain ⟨c', hc', rfl⟩ := hc
              simp [ih nd.next (n + 1) c' hc', errorFrom]

/-- **C6.** For a non-empty sequence of messages, the chain built by
sequentially pushing them starting from the nil interface is a `*Elist` with
exactly one node per message, and its render lists the messages most recent
first, numbered consecutively from 1 (so the first-pushed message carries
the last number). -/
theorem pushAll_length_and_numbering (msgs : List String) (h : msgs ≠ []) :
    (pushAll msgs).isElist = true ∧
      (pushAll msgs).chainLength = msgs.length ∧
      Render (pushAll msgs) = specLines msgs.reverse 1 := by
  obtain ⟨m, rest, rfl⟩ := List.exists_cons_of_ne_nil h
  rw [pushAll_eq_chainOnto]
  refine ⟨rfl, ?_, ?_⟩
  · simp [GoError.chainLength, chainOnto_length, ElistPtr.length]
  · rw [Render, error_eq_errorFrom, errorFrom_chainOnto]
    simp [errorFrom, String.append_empty]

theorem pushAll_length_and_numbering_witness :
    (["inner", "outer"] : List String) ≠ [] ∧
      ((pushAll ["inner", "outer"]).isElist = true ∧
        (pushAll ["inner", "outer"]).chainLength =
          (["inner", "outer"] : List String).length ∧
        Render (pushAll ["inner", "outer"]) =
          specLines (["inner", "outer"] : List String).reverse 1) :=
  ⟨by decide, pushAll_length_and_numbering ["inner", "outer"] (by decide)⟩

/-- **C7.** Rendering is deterministic and mutation-free: in the heap model
of `Elist::Error`, the heap after a call is the heap before it (the method
body reads `q.value` and `q.next` but writes no field of any node), and a
second call on the post-state heap returns the identical string. -/
theorem error_deterministic_no_mutation (h : List HNode) (p : Option Nat) :
    (heapError h p).2 = h ∧
      (heapError ((heapError h p).2) p).1 = (heapError h p).1 := by
  cases p <;> exact ⟨rfl, rfl⟩

/-- The heap model renders exactly what the pure model renders: on a heap
whose chain from `p` is acyclic with no dangling address and reads back as
the pointer structure `c`, the method returns `c.Error`. -/
theorem heapError_agrees_pure (h : List HNode) (p : Option Nat) (c : ElistPtr)
    (hc : readChain h p (h.length + 1) = some c) :
    (heapError h p).1 = some c.Error := by
  cases p with
  | none =>
      simp [readChain] at hc
      simp [heapError, ← hc, ElistPtr.Error]
  | some a =>
      rw [heapError, heapErrorLoop_readChain h (h.length + 1) (some a) 1 c hc,
        error_eq_errorFrom]

/-- **C8.** The formatted constructors reduce to the plain ones composed
with the formatter: `Newf` is `New` of the formatted string, and `Pushf e`
is `Push e` of the formatted string, for every error value `e`. -/
theorem newf_pushf_reduce (format : String) (args : List FmtArg) (e : GoError) :
    Newf format args = New (sprintf format args) ∧
      Pushf e format args = Push e (sprintf format args) :=
  ⟨rfl, rfl⟩

/-- **C9.** Every error value constructed only by the public operations
`New`, `Newf`, `Push`, `Pushf` is a chain all of whose payloads are message
strings or adopted foreign errors, so rendering it never takes the
`nil`-payload branch (`[error == nil]`) nor the `default` branch
(`[Unrecognized error]`) of the type switch. -/
theorem built_payload_discipline {g : GoError} (h : Built g) :
    g.wellFormed = true := by
  induction h with
  | vnew s => rfl
  | vnewf format args => rfl
  | vpushNil s => rfl
  | vpushForeign d s => rfl
  | vpushChain s e hB ih =>
      cases e with
      | nilIface => simp [GoError.wellFormed] at ih
      | foreign d => simp [GoError.wellFormed] at ih
      | elist p => simpa [Push, GoError.wellFormed, goodChain] using ih
  | vpushfNil format args => rfl
  | vpushfForeign d format args => rfl
  | vpushfChain format args e hB ih =>
      cases e with
      | nilIface => simp [GoError.wellFormed] at ih
      | foreign d => simp [GoError.wellFormed] at ih
      | elist p => simpa [Pushf, Push, GoError.wellFormed, goodChain] using ih

theorem built_payload_discipline_witness :
    GoError.wellFormed (Push (New "inner") "outer") = true :=
  built_payload_discipline
    (Built.vpushChain "outer" (New "inner") (Built.vnew "inner"))
